import Mathlib

/-!
Shallow embedding of the program `sma_trade.py`: an SMA-trading notifier that
downloads a year of daily closes for one ticker, computes three indicators
(5-day SMA, EMA with com=20, 180-day SMA), classifies the descending order of
the three latest indicator values, looks the resulting state up in a static
strategy table, and e-mails the recommendation.  Prices are modelled as `ℚ`,
NaN cells as `none`, and an uncaught Python exception as `Except.error`.
-/

namespace SmaTrade

/-- Comparison used by line 38, sorting the items of the `smas` dict by value
with reverse=True: the Python builtin sort is stable and orders by value
descending while keeping insertion order among equal values; a stable
insertion sort with the reflexive relation "first value is at least the
second" realises exactly this. -/
def valOrder (p q : String × ℚ) : Prop := q.2 ≤ p.2

instance : DecidableRel valOrder :=
  fun p q => inferInstanceAs (Decidable (q.2 ≤ p.2))

instance : IsTotal (String × ℚ) valOrder := ⟨fun p q => le_total q.2 p.2⟩

instance : IsTrans (String × ℚ) valOrder := ⟨fun _ _ _ h h' => le_trans h' h⟩

/-- The (name, value) pairs of the `smas` dict in its insertion order
(SMA5, EMA20, SMA180), sorted by value descending (lines 32–38). -/
def statePairs (a b c : ℚ) : List (String × ℚ) :=
  List.insertionSort valOrder [("SMA5", a), ("EMA20", b), ("SMA180", c)]

/-- Embedding of `get_sma_state` (lines 29–39): `None` when any of the three
indicator cells is NaN (`pd.isna`), otherwise the tuple of indicator names
ordered by value descending. -/
def get_sma_state (sma5 ema20 sma180 : Option ℚ) : Option (List String) :=
  match sma5, ema20, sma180 with
  | some a, some b, some c => some ((statePairs a b c).map Prod.fst)
  | _, _, _ => none

/-- Scanner for the Python string split method with a non-empty separator:
walk the string left to right, cutting at each occurrence of `sep`; `fuel`
bounds the number of characters consumed (one or more per step). -/
def splitGo (sep : List Char) : Nat → List Char → List Char → List (List Char)
  | _, [], acc => [acc.reverse]
  | 0, _ :: _, acc => [acc.reverse]
  | fuel + 1, c :: rest, acc =>
    if sep.isPrefixOf (c :: rest) then
      acc.reverse :: splitGo sep fuel ((c :: rest).drop sep.length) []
    else
      splitGo sep fuel rest (c :: acc)

/-- Python `k_str.split(sep)` (line 77), for a non-empty separator. -/
def pySplit (sep s : String) : List String :=
  (splitGo sep.toList s.toList.length s.toList []).map List.asString

/-- Python `sep.join(current_state)` (line 80). -/
def pyJoin (sep : String) (l : List String) : String := String.intercalate sep l

/-- A Python dict built by repeated assignment and read with `.get(key, default)`:
the last binding of a key wins. -/
def dictGetD (m : List (List String × ℚ)) (k : List String) (d : ℚ) : ℚ :=
  match (m.filter (fun p => decide (p.1 = k))).getLast? with
  | some p => p.2
  | none => d

/-- Embedding of lines 75–78: convert the string-keyed strategy config into a
map keyed by the tuple obtained from splitting each key on the separator. -/
def toStrategyMap (config : List (String × ℚ)) : List (List String × ℚ) :=
  config.map (fun kv => (pySplit (" > ") kv.1, kv.2))

/-- The allocation resolver of the spec: a missing state short-circuits to
allocation 0.0 (lines 70–72), otherwise `strategy_map.get(current_state, 0.0)`
(line 82). -/
def resolveAllocation (state : Option (List String)) (m : List (List String × ℚ)) : ℚ :=
  match state with
  | none => 0
  | some st => dictGetD m st 0

/-- Embedding of `Series.rolling(n).mean()` (lines 59 and 61): entry `i` is
the arithmetic mean of the trailing `n` observations, NaN (`none`) until `n`
observations exist. -/
def rollingMean (n : Nat) (prices : List ℚ) : List (Option ℚ) :=
  (List.range prices.length).map (fun i =>
    if n ≤ i + 1 then some ((((prices.take (i + 1)).drop (i + 1 - n)).sum) / (n : ℚ)) else none)

/-- Smoothing factor of `ewm(com=20)`: α = 1/(1+com). -/
def emaAlpha : ℚ := 1 / (1 + 20)

/-- One step of `ewm(com=20, adjust=False).mean()`: y = (1-α)·prev + α·x. -/
def ewmStep (prev x : ℚ) : ℚ := (1 - emaAlpha) * prev + emaAlpha * x

def ewmAux (prev : ℚ) : List ℚ → List ℚ
  | [] => []
  | x :: xs => ewmStep prev x :: ewmAux (ewmStep prev x) xs

/-- Embedding of `Series.ewm(com=20, adjust=False).mean()` (line 60): seeded
with the first observation, then the recursive update; defined at every
position. -/
def ewmMean : List ℚ → List ℚ
  | [] => []
  | x :: xs => x :: ewmAux x xs

/-- One row of the dataframe after the three indicator columns are added. -/
structure Row where
  date : String
  close : ℚ
  sma5 : Option ℚ
  ema20 : Option ℚ
  sma180 : Option ℚ
deriving DecidableEq

/-- Zip the downloaded (date, close) rows with the three indicator columns. -/
def buildRows : List (String × ℚ) → List (Option ℚ) → List ℚ → List (Option ℚ) → List Row
  | (d, c) :: ds, s5 :: t5, e :: es, s180 :: t180 =>
    ⟨d, c, s5, some e, s180⟩ :: buildRows ds t5 es t180
  | _, _, _, _ => []

/-- Predicate of `data.dropna()`, which keeps a row iff no cell is NaN; only
the three indicator columns can hold NaN here. -/
def hasAllIndicators (r : Row) : Bool :=
  r.sma5.isSome && r.ema20.isSome && r.sma180.isSome

/-- Embedding of `get_current_recommendation(ticker, strategy_map_config)`
(lines 42–84), with the downloaded dataframe (`data`) and the wall-clock date
(`datetime.now()`, `today`) made explicit inputs.  An uncaught Python
exception is modelled as `Except.error` carrying the exception name:
`data.dropna().iloc[-1]` (line 64) raises IndexError when `dropna` leaves no
row. -/
def get_current_recommendation (today : String) (data : List (String × ℚ))
    (config : List (String × ℚ)) : Except String (String × ℚ × String) :=
  if data.isEmpty then
    Except.ok ("데이터 다운로드 실패", 0, today)
  else
    let closes := data.map Prod.snd
    let rows := buildRows data (rollingMean 5 closes) (ewmMean closes) (rollingMean 180 closes)
    let valid := rows.filter hasAllIndicators
    match valid.getLast? with
    | none => Except.error ("IndexError")
    | some r =>
      match get_sma_state r.sma5 r.ema20 r.sma180 with
      | none => Except.ok ("SMA 계산 불가 (데이터 부족)", 0, r.date)
      | some st =>
        Except.ok (pyJoin (" > ") st, dictGetD (toStrategyMap config) st 0, r.date)

/-- The module-level strategy table `my_strategy` (lines 16–26). -/
def my_strategy : List (String × ℚ) :=
  [("SMA5 > EMA20 > SMA180", 0.7),
   ("EMA20 > SMA5 > SMA180", 1),
   ("SMA5 > SMA180 > EMA20", 0.4),
   ("EMA20 > SMA180 > SMA5", 0),
   ("SMA180 > SMA5 > EMA20", 0.4),
   ("SMA180 > EMA20 > SMA5", 0.1)]

/-- Outcome of one `send_email` run. -/
inductive SendResult
  | skipped
  | sent
  | failed (msg : String)
deriving DecidableEq

/-- Python truthiness of the environment strings: `None` and the empty string
are falsy. -/
def pyTruthy : Option String → Bool
  | none => false
  | some s => !(s == "")

/-- Embedding of `send_email(subject, body, sender, password, receiver)`
(lines 88–108) with the SMTP transport (login plus send) abstracted as an
`Except`-valued outcome.  The guard `if not all([sender, password, receiver])`
returns before any transport is attempted; the `try/except Exception` block
turns every transport error into a logged non-fatal result, so the whole
function is a value of `Except.ok`. -/
def send_email (sender password receiver : Option String)
    (transport : Except String Unit) : Except String SendResult :=
  if !(pyTruthy sender && pyTruthy password && pyTruthy receiver) then
    Except.ok SendResult.skipped
  else
    match transport with
    | Except.ok _ => Except.ok SendResult.sent
    | Except.error e => Except.ok (SendResult.failed e)

/-- Priority of the three indicator names in the dict insertion order of
`get_sma_state`. -/
def namePriority (s : String) : Nat :=
  if s = "SMA5" then 0 else if s = "EMA20" then 1 else 2

/-- Modelled from the claim: sort by value descending with exact ties broken
by the fixed insertion order SMA5, then EMA20, then SMA180. -/
def tieOrder (p q : String × ℚ) : Prop :=
  q.2 < p.2 ∨ (p.2 = q.2 ∧ namePriority p.1 ≤ namePriority q.1)

instance : DecidableRel tieOrder :=
  fun p q =>
    inferInstanceAs (Decidable (q.2 < p.2 ∨ (p.2 = q.2 ∧ namePriority p.1 ≤ namePriority q.1)))

/-- The state classifier as claim C10 describes it: value-descending order
with the documented deterministic tie-break. -/
def specTieBreakState (a b c : ℚ) : List String :=
  (List.insertionSort tieOrder [("SMA5", a), ("EMA20", b), ("SMA180", c)]).map Prod.fst

/-- The six possible classified states (3-permutations of the names). -/
def allStates : List (List String) :=
  [["SMA5", "EMA20", "SMA180"], ["SMA5", "SMA180", "EMA20"],
   ["EMA20", "SMA5", "SMA180"], ["EMA20", "SMA180", "SMA5"],
   ["SMA180", "SMA5", "EMA20"], ["SMA180", "EMA20", "SMA5"]]

/-- A concrete non-empty price history with fewer than 180 rows, so that no
row carries all three indicators. -/
def shortHistory : List (String × ℚ) :=
  [("2026-01-02", 100), ("2026-01-05", 101), ("2026-01-06", 102)]

/-- Helper: whenever the first name has at most the priority of the second,
the tie-break order and the plain value order agree on the pair. -/
lemma tieOrder_iff (n m : String) (x y : ℚ) (h : namePriority n ≤ namePriority m) :
    tieOrder (n, x) (m, y) ↔ valOrder (n, x) (m, y) := by
  unfold tieOrder valOrder
  constructor
  · rintro (hlt | ⟨heq, -⟩)
    · exact le_of_lt hlt
    · exact le_of_eq heq.symm
  · intro hle
    rcases lt_or_eq_of_le hle with hlt | heq
    · exact Or.inl hlt
    · exact Or.inr ⟨heq.symm, h⟩

/-- Helper: every classified state is one of the six permutations. -/
lemma get_sma_state_mem_allStates (a b c : ℚ) {st : List String}
    (h : get_sma_state (some a) (some b) (some c) = some st) : st ∈ allStates := by
  by_cases h1 : valOrder ("EMA20", b) ("SMA180", c) <;>
    by_cases h2 : valOrder ("SMA5", a) ("EMA20", b) <;>
      by_cases h3 : valOrder ("SMA5", a) ("SMA180", c) <;>
        (simp only [get_sma_state, statePairs, List.insertionSort, List.orderedInsert,
            h1, h2, h3, if_true, if_false, Option.some.injEq] at h <;>
          first
            | (rw [← h] <;> decide)
            | (rw [h] <;> decide)
            | (subst h <;> decide)
            | (simp [h1, h2, h3] at h <;> subst h <;> decide))

end SmaTrade

namespace SmaTrade

/-- C2: if price-history acquisition yields an empty result,
`get_current_recommendation` returns the data-unavailable report with
allocation exactly 0.0 and the current wall-clock date as the reference date,
for every configuration, without touching the indicator pipeline. -/
theorem empty_history_data_unavailable (today : String) (config : List (String × ℚ)) :
    get_current_recommendation today [] config =
      Except.ok ("데이터 다운로드 실패", 0, today) := rfl

/-- C1 (evaluation at the failing input): on a non-empty history too short for
any row to carry all three indicators, `dropna` leaves nothing and
`iloc[-1]` raises IndexError, so `get_current_recommendation` does not return
the insufficient-data report the spec promises. -/
theorem insufficient_history_raises_index_error :
    shortHistory ≠ [] ∧
    ((buildRows shortHistory (rollingMean 5 (shortHistory.map Prod.snd))
        (ewmMean (shortHistory.map Prod.snd))
        (rollingMean 180 (shortHistory.map Prod.snd))).filter hasAllIndicators) = [] ∧
    get_current_recommendation ("2026-10-12") shortHistory my_strategy =
      Except.error ("IndexError") :=
  ⟨by decide, rfl, rfl⟩

/-- C3: whenever at least one of the three indicator values is undefined,
`get_sma_state` returns the no-state value, and the resolver maps that
outcome to allocation exactly 0.0 for every table. -/
theorem undefined_indicator_no_state (sma5 ema20 sma180 : Option ℚ)
    (h : sma5 = none ∨ ema20 = none ∨ sma180 = none) :
    get_sma_state sma5 ema20 sma180 = none ∧
    ∀ m : List (List String × ℚ), resolveAllocation (get_sma_state sma5 ema20 sma180) m = 0 := by
  have hnone : get_sma_state sma5 ema20 sma180 = none := by
    cases sma5 <;> cases ema20 <;> cases sma180 <;> simp_all [get_sma_state]
  exact ⟨hnone, fun m => by rw [hnone]; rfl⟩

theorem undefined_indicator_no_state_witness :
    get_sma_state (some 1) none (some 2) = none ∧
    resolveAllocation (get_sma_state (some 1) none (some 2)) (toStrategyMap my_strategy) = 0 := by
  have h := undefined_indicator_no_state (some 1) none (some 2) (Or.inr (Or.inl rfl))
  exact ⟨h.1, h.2 (toStrategyMap my_strategy)⟩

/-- C4: allocation resolution is total and returns exactly 0.0 whenever the
state is unmatched in the table (in particular for the empty table) and for
the no-state input. -/
theorem resolve_unmatched_returns_zero (st : List String) (m : List (List String × ℚ))
    (h : ∀ p ∈ m, p.1 ≠ st) :
    resolveAllocation (some st) m = 0 ∧ resolveAllocation none m = 0 := by
  constructor
  · show dictGetD m st 0 = 0
    unfold dictGetD
    have hf : m.filter (fun p => decide (p.1 = st)) = [] :=
      List.filter_eq_nil_iff.2 (fun p hp => by simpa using h p hp)
    rw [hf]
    rfl
  · rfl

theorem resolve_unmatched_returns_zero_witness :
    resolveAllocation (some (["SMA5", "EMA20", "SMA180"])) [] = 0 ∧
    resolveAllocation none [] = 0 :=
  resolve_unmatched_returns_zero (["SMA5", "EMA20", "SMA180"]) [] (by simp)

/-- C5: with all three indicator values defined, `get_sma_state` returns the
names of the (name, value) pairs sorted by value descending, and the result
is a 3-permutation of the names SMA5, EMA20, SMA180. -/
theorem classify_sorts_names_descending (a b c : ℚ) :
    get_sma_state (some a) (some b) (some c) = some ((statePairs a b c).map Prod.fst) ∧
    (statePairs a b c).Perm [("SMA5", a), ("EMA20", b), ("SMA180", c)] ∧
    List.Sorted valOrder (statePairs a b c) ∧
    ((statePairs a b c).map Prod.fst).Perm (["SMA5", "EMA20", "SMA180"]) := by
  refine ⟨rfl, List.perm_insertionSort valOrder _, List.sorted_insertionSort valOrder _, ?_⟩
  have h := (List.perm_insertionSort valOrder
    [("SMA5", a), ("EMA20", b), ("SMA180", c)]).map Prod.fst
  simpa using h

/-- C6: rendering a classified state to its canonical label and splitting the
label back recovers the identical tuple, and for distinct indicator values the
classified state matches exactly one key of the table built from the six
permutation labels. -/
theorem state_label_round_trip (a b c : ℚ) (st : List String)
    (h : get_sma_state (some a) (some b) (some c) = some st)
    (_hab : a ≠ b) (_hbc : b ≠ c) (_hac : a ≠ c) :
    pySplit (" > ") (pyJoin (" > ") st) = st ∧
    (toStrategyMap my_strategy).countP (fun p => decide (p.1 = st)) = 1 := by
  have hmem := get_sma_state_mem_allStates a b c h
  simp only [allStates, List.mem_cons, List.not_mem_nil, or_false] at hmem
  rcases hmem with rfl | rfl | rfl | rfl | rfl | rfl <;> exact ⟨by decide, by decide⟩

theorem state_label_round_trip_witness :
    get_sma_state (some 3) (some 2) (some 1) = some (["SMA5", "EMA20", "SMA180"]) ∧
    pySplit (" > ") (pyJoin (" > ") ["SMA5", "EMA20", "SMA180"]) = ["SMA5", "EMA20", "SMA180"] ∧
    (toStrategyMap my_strategy).countP
      (fun p => decide (p.1 = ["SMA5", "EMA20", "SMA180"])) = 1 := by
  have h : get_sma_state (some 3) (some 2) (some 1) = some (["SMA5", "EMA20", "SMA180"]) := by
    decide
  have h2 := state_label_round_trip 3 2 1 (["SMA5", "EMA20", "SMA180"]) h
    (by norm_num) (by norm_num) (by norm_num)
  exact ⟨h, h2.1, h2.2⟩

/-- Helper: a rolling-mean entry with fewer than `n` observations of history
is undefined. -/
lemma rollingMean_undefined (n : ℕ) (prices : List ℚ) (i : ℕ)
    (hi : i < prices.length) (hn : i + 1 < n) :
    (rollingMean n prices).getD i none = none := by
  unfold rollingMean
  rw [List.getD_eq_getElem?_getD, List.getElem?_map, List.getElem?_range hi]
  simp only [Option.map_some', Option.getD_some]
  exact if_neg (by omega)

/-- Helper: when the last five observations all equal `P`, the final 5-day
rolling mean equals `P`. -/
lemma rollingMean_last_constant (prices : List ℚ) (P : ℚ) (h5 : 5 ≤ prices.length)
    (hP : ∀ x ∈ prices.drop (prices.length - 5), x = P) :
    (rollingMean 5 prices).getLast? = some (some P) := by
  have hlen : (rollingMean 5 prices).length = prices.length := by
    simp [rollingMean]
  rw [List.getLast?_eq_getElem?, hlen]
  unfold rollingMean
  rw [List.getElem?_map, List.getElem?_range (by omega)]
  simp only [Option.map_some']
  congr 1
  rw [if_pos (by omega)]
  congr 1
  have h1 : prices.length - 1 + 1 = prices.length := by omega
  rw [h1, List.take_length]
  have hrep : prices.drop (prices.length - 5) = List.replicate 5 P := by
    rw [List.eq_replicate_iff]
    exact ⟨by rw [List.length_drop] <;> omega, hP⟩
  rw [hrep, List.sum_replicate, nsmul_eq_mul]
  norm_num

/-- C7: the final 5-day rolling mean of a series ending in five equal values
`P` equals `P`; every position with fewer than 5 observations has an undefined
short average; every position with fewer than 180 observations has an
undefined long average. -/
theorem rolling_mean_window_properties :
    (∀ (prices : List ℚ) (P : ℚ), 5 ≤ prices.length →
        (∀ x ∈ prices.drop (prices.length - 5), x = P) →
        (rollingMean 5 prices).getLast? = some (some P)) ∧
    (∀ (prices : List ℚ) (i : ℕ), i < prices.length → i + 1 < 5 →
        (rollingMean 5 prices).getD i none = none) ∧
    (∀ (prices : List ℚ) (i : ℕ), i < prices.length → i + 1 < 180 →
        (rollingMean 180 prices).getD i none = none) :=
  ⟨fun prices P h5 hP => rollingMean_last_constant prices P h5 hP,
   fun prices i hi hn => rollingMean_undefined 5 prices i hi hn,
   fun prices i hi hn => rollingMean_undefined 180 prices i hi hn⟩

theorem rolling_mean_window_properties_witness :
    (rollingMean 5 [2, 2, 2, 2, 2]).getLast? = some (some 2) ∧
    (rollingMean 5 [1, 2, 3]).getD 2 none = none ∧
    (rollingMean 180 [1, 2, 3]).getD 2 none = none :=
  ⟨rolling_mean_window_properties.1 [2, 2, 2, 2, 2] 2 (by decide) (by decide),
   rolling_mean_window_properties.2.1 [1, 2, 3] 2 (by decide) (by decide),
   rolling_mean_window_properties.2.2 [1, 2, 3] 2 (by decide) (by decide)⟩

/-- Helper: length of the EMA tail. -/
lemma ewmAux_length (prev : ℚ) (xs : List ℚ) : (ewmAux prev xs).length = xs.length := by
  induction xs generalizing prev with
  | nil => rfl
  | cons y ys ih => simp [ewmAux, ih]

/-- Helper: successive EMA tail entries follow the smoothing step. -/
lemma ewmAux_getD_succ (xs : List ℚ) : ∀ (prev : ℚ) (i : ℕ), i + 1 < xs.length →
    (ewmAux prev xs).getD (i + 1) 0 =
      ewmStep ((ewmAux prev xs).getD i 0) (xs.getD (i + 1) 0) := by
  induction xs with
  | nil => intro prev i h; simp at h
  | cons y ys ih =>
    intro prev i h
    cases i with
    | zero =>
      cases ys with
      | nil => simp at h
      | cons z zs => rfl
    | succ j =>
      have h' : j + 1 < ys.length := by
        simp only [List.length_cons] at h
        omega
      simp only [ewmAux, List.getD_cons_succ]
      exact ih (ewmStep prev y) j h'

/-- C8: the medium average is the exponentially weighted recursion
y(t) = y(t-1) + α·(x(t) - y(t-1)) with α = 1/(1+20), seeded with the first
price, and is defined at every position of a non-empty series. -/
theorem ewm_recursive_form (x : ℚ) (xs : List ℚ) :
    (ewmMean (x :: xs)).length = (x :: xs).length ∧
    (ewmMean (x :: xs)).getD 0 0 = x ∧
    ∀ i : ℕ, i + 1 < (x :: xs).length →
      (ewmMean (x :: xs)).getD (i + 1) 0 =
        (ewmMean (x :: xs)).getD i 0 +
          (1 / (1 + 20)) * ((x :: xs).getD (i + 1) 0 - (ewmMean (x :: xs)).getD i 0) := by
  have key : ∀ prev v : ℚ, ewmStep prev v = prev + (1 / (1 + 20)) * (v - prev) := by
    intro prev v
    unfold ewmStep emaAlpha
    ring
  refine ⟨by simp [ewmMean, ewmAux_length], rfl, ?_⟩
  intro i h
  cases i with
  | zero =>
    cases xs with
    | nil => simp at h
    | cons y ys =>
      simp only [ewmMean, ewmAux, List.getD_cons_succ, List.getD_cons_zero]
      exact key x y
  | succ j =>
    have h' : j + 1 < xs.length := by
      simp only [List.length_cons] at h
      omega
    simp only [ewmMean, List.getD_cons_succ]
    rw [ewmAux_getD_succ xs x j h', key]

theorem ewm_recursive_form_witness :
    (ewmMean [1, 2]).length = 2 ∧
    (ewmMean [1, 2]).getD 0 0 = 1 ∧
    (ewmMean [1, 2]).getD 1 0 =
      (ewmMean [1, 2]).getD 0 0 +
        (1 / (1 + 20)) * (([1, 2] : List ℚ).getD 1 0 - (ewmMean [1, 2]).getD 0 0) := by
  have h := ewm_recursive_form 1 [2]
  exact ⟨h.1, h.2.1, h.2.2 0 (by decide)⟩

/-- C9: `send_email` never propagates an exception; with any absent or empty
sender, credential or recipient it skips without attempting transport, and a
transport-level failure is swallowed into a logged non-fatal result. -/
theorem send_email_never_raises (sender password receiver : Option String)
    (transport : Except String Unit) :
    (∃ res, send_email sender password receiver transport = Except.ok res) ∧
    ((pyTruthy sender = false ∨ pyTruthy password = false ∨ pyTruthy receiver = false) →
      send_email sender password receiver transport = Except.ok SendResult.skipped) ∧
    (∀ e, transport = Except.error e →
      send_email sender password receiver transport = Except.ok (SendResult.failed e) ∨
      send_email sender password receiver transport = Except.ok SendResult.skipped) := by
  cases hs : pyTruthy sender <;> cases hp : pyTruthy password <;>
    cases hr : pyTruthy receiver <;> cases transport <;>
      simp [send_email, hs, hp, hr]

theorem send_email_never_raises_witness :
    send_email none (some ("pw")) (some ("rcpt")) (Except.ok ()) =
      Except.ok SendResult.skipped ∧
    (send_email (some ("sndr")) (some ("pw")) (some ("rcpt")) (Except.error ("auth failed")) =
        Except.ok (SendResult.failed ("auth failed")) ∨
      send_email (some ("sndr")) (some ("pw")) (some ("rcpt")) (Except.error ("auth failed")) =
        Except.ok SendResult.skipped) :=
  ⟨(send_email_never_raises none (some ("pw")) (some ("rcpt")) (Except.ok ())).2.1
      (Or.inl rfl),
   (send_email_never_raises (some ("sndr")) (some ("pw")) (some ("rcpt"))
      (Except.error ("auth failed"))).2.2 ("auth failed") rfl⟩

/-- C10: `get_sma_state` is a pure function (hence deterministic across runs),
and on exact ties it coincides with the sort that breaks ties by the fixed
insertion order SMA5, then EMA20, then SMA180. -/
theorem classify_tie_break_insertion_order (a b c : ℚ) :
    get_sma_state (some a) (some b) (some c) = some (specTieBreakState a b c) := by
  have h23 := tieOrder_iff ("EMA20") ("SMA180") b c (by decide)
  have h12 := tieOrder_iff ("SMA5") ("EMA20") a b (by decide)
  have h13 := tieOrder_iff ("SMA5") ("SMA180") a c (by decide)
  by_cases h1 : valOrder ("EMA20", b) ("SMA180", c) <;>
    by_cases h2 : valOrder ("SMA5", a) ("EMA20", b) <;>
      by_cases h3 : valOrder ("SMA5", a) ("SMA180", c) <;>
        simp [get_sma_state, statePairs, specTieBreakState, List.insertionSort,
          List.orderedInsert, h1, h2, h3, h12, h13, h23]

end SmaTrade
